import Mathlib

/-!
Shallow embedding of the marginfi-v2 accounting and risk-evaluation core
(`programs/marginfi/src/state/marginfi_account.rs`).

Fixed-point values of type `I80F48` (from the `fixed` crate) are embedded as
their raw 128-bit two's-complement representation: an integer `raw` with the
real value `raw / 2^48`; a value is representable when
`-2^127 ≤ raw < 2^127`.  Lossy operations (multiplication's fractional
truncation, division) round toward negative infinity, which `Int.fdiv`
captures; the `checked_*` operations return `none` on overflow or on an
undefined division, matching the crate's `checked_add` / `checked_sub` /
`checked_mul` / `checked_div`.

Rust computations are embedded in the `MResult` type, which distinguishes a
returned value (`ok`), a returned program error (`err`, carrying a
`MarginfiError`), and a Rust panic (`panics`, produced by `unwrap()` on
`None` and by out-of-bounds array indexing, which abort instead of
returning an error).

The external `Bank` collaborator (its exchange-rate conversions, aggregate
share counters and risk-weight configuration) lives in a file that is not
part of the core under verification; it is modelled from the spec where
marked below.
-/

namespace Marginfi

/-- Raw representation of the `I80F48` fixed-point type: real value is
`raw / 2^48`, representable iff `-2^127 ≤ raw < 2^127`. -/
structure I80F48 where
  raw : ℤ
deriving DecidableEq, Repr

namespace I80F48

/-- Scale of the fractional part: `2^48`. -/
def frac : ℤ := 2 ^ 48

/-- One more than the largest representable raw value: `2^127`. -/
def bound : ℤ := 2 ^ 127

/-- A raw integer is representable as an `I80F48`. -/
def inRange (x : ℤ) : Prop := -bound ≤ x ∧ x < bound

instance (x : ℤ) : Decidable (inRange x) := by unfold inRange; infer_instance

/-- `I80F48::ZERO`. -/
def zero : I80F48 := ⟨0⟩

/-- Exact conversion of an integer (`from_num`). -/
def ofInt (n : ℤ) : I80F48 := ⟨n * frac⟩

/-- `checked_add`: `none` on overflow. -/
def checked_add (a b : I80F48) : Option I80F48 :=
  if inRange (a.raw + b.raw) then some ⟨a.raw + b.raw⟩ else none

/-- `checked_sub`: `none` on overflow. -/
def checked_sub (a b : I80F48) : Option I80F48 :=
  if inRange (a.raw - b.raw) then some ⟨a.raw - b.raw⟩ else none

/-- `checked_mul`: full product, fractional truncation toward `-∞`,
`none` on overflow. -/
def checked_mul (a b : I80F48) : Option I80F48 :=
  let r := (a.raw * b.raw).fdiv frac
  if inRange r then some ⟨r⟩ else none

/-- `checked_div`: `none` on a zero divisor or overflow; quotient rounded
toward `-∞`. -/
def checked_div (a b : I80F48) : Option I80F48 :=
  if b.raw = 0 then none
  else
    let r := (a.raw * frac).fdiv b.raw
    if inRange r then some ⟨r⟩ else none

/-- Unary negation (`-x` in the source). -/
def neg (a : I80F48) : I80F48 := ⟨-a.raw⟩

/-- `std::cmp::min` under the `I80F48` order (raw-value order). -/
def min (a b : I80F48) : I80F48 := if a.raw ≤ b.raw then a else b

/-- `std::cmp::max` under the `I80F48` order (raw-value order). -/
def max (a b : I80F48) : I80F48 := if a.raw ≤ b.raw then b else a

end I80F48

/-- The error codes of the core that the embedded functions can return. -/
inductive MarginfiError where
  | mathError
  | bankNotFound
  | lendingAccountBalanceNotFound
  | lendingAccountBalanceSlotsFull
  | borrowingNotAllowed
  | badAccountHealth
deriving DecidableEq, Repr

/-- Outcome of a Rust computation: a value, a returned error, or a panic
(`unwrap()` on `None`, out-of-bounds indexing), which aborts rather than
returning an error to the caller. -/
inductive MResult (α : Type) where
  | ok : α → MResult α
  | err : MarginfiError → MResult α
  | panics : MResult α
deriving DecidableEq, Repr

namespace MResult

def bind {α β : Type} : MResult α → (α → MResult β) → MResult β
  | ok a, f => f a
  | err e, _ => err e
  | panics, _ => panics

instance : Monad MResult where
  pure := ok
  bind := bind

end MResult

/-- Lift a checked-arithmetic result: `None` becomes the `math_error!`
(`MathError`) program error, as `ok_or_else(math_error!())?` does. -/
def liftMath {α : Type} : Option α → MResult α
  | some a => .ok a
  | none => .err .mathError

/-- Lift an option whose `None` case is hit by `unwrap()` or by a direct
array index: the program panics. -/
def liftPanic {α : Type} : Option α → MResult α
  | some a => .ok a
  | none => .panics

/-- A pyth oracle price: signed mantissa (`i64`) and decimal exponent
(`i32`). -/
structure Price where
  price : ℤ
  expo : ℤ
deriving DecidableEq, Repr

/-- `EXP_10_I80F48`: the 15 exact powers of ten `10^0 .. 10^14`. -/
def EXP_10_I80F48 : List I80F48 :=
  [I80F48.ofInt 1,
   I80F48.ofInt 10,
   I80F48.ofInt 100,
   I80F48.ofInt 1000,
   I80F48.ofInt 10000,
   I80F48.ofInt 100000,
   I80F48.ofInt 1000000,
   I80F48.ofInt 10000000,
   I80F48.ofInt 100000000,
   I80F48.ofInt 1000000000,
   I80F48.ofInt 10000000000,
   I80F48.ofInt 100000000000,
   I80F48.ofInt 1000000000000,
   I80F48.ofInt 10000000000000,
   I80F48.ofInt 100000000000000]

/-- The canonical target exponent. -/
def EXPONENT : ℤ := 6

/-- `pyth_price_to_i80f48`: rescale an oracle price to decimal exponent 6.
The table access `EXP_10_I80F48[expo_delta.unsigned_abs() as usize]` is a
direct index and panics when the index exceeds the table. -/
def pyth_price_to_i80f48 (price : Price) : MResult I80F48 := do
  let expo_delta := EXPONENT - price.expo
  let expo_scale ← liftPanic EXP_10_I80F48[expo_delta.natAbs]?
  let p := I80F48.ofInt price.price
  if expo_delta < 0 then
    liftMath (p.checked_div expo_scale)
  else
    liftMath (p.checked_mul expo_scale)

/-- `calc_asset_value`: optionally weighted value of a quantity at a pyth
price.  The scale lookup is a direct index (panics beyond the table) and
the weight multiplication is `checked_mul(..).unwrap()` (panics on
overflow); the price multiplication and the scale division return the math
error on overflow. -/
def calc_asset_value (asset_quantity : I80F48) (pyth_price : Price)
    (weight : Option I80F48) : MResult I80F48 := do
  let price ← pyth_price_to_i80f48 pyth_price
  let scaling_factor ← liftPanic EXP_10_I80F48[pyth_price.expo.natAbs]?
  let weighted_asset_qt ←
    match weight with
    | some w => liftPanic (asset_quantity.checked_mul w)
    | none => pure asset_quantity
  let m ← liftMath (weighted_asset_qt.checked_mul price)
  liftMath (m.checked_div scaling_factor)

/-- `calc_asset_quantity`: inverse of the unweighted valuation,
`value * scale / price`. -/
def calc_asset_quantity (asset_value : I80F48) (pyth_price : Price) :
    MResult I80F48 := do
  let price ← pyth_price_to_i80f48 pyth_price
  let scaling_factor ← liftPanic EXP_10_I80F48[pyth_price.expo.natAbs]?
  let m ← liftMath (asset_value.checked_mul scaling_factor)
  liftMath (m.checked_div price)

/-- The two weight regimes. -/
inductive WeightType where
  | initial
  | maintenance
deriving DecidableEq, Repr

/-- The two risk requirement types. -/
inductive RiskRequirementType where
  | initial
  | maintenance
deriving DecidableEq, Repr

/-- `RiskRequirementType::to_weight_type`. -/
def RiskRequirementType.to_weight_type : RiskRequirementType → WeightType
  | .initial => .initial
  | .maintenance => .maintenance

/-- Modelled from the spec: the external `Bank` collaborator
(`marginfi_group.rs`, outside the core under verification).  Per §6 of the
spec it exposes four share/amount conversions — `depositAmount`,
`liabilityAmount`, `depositShares`, `liabilityShares` — "each monotonic and
using the bank's current pooled exchange rate" (one rate for the deposit
pool and one for the liability pool), aggregate share counters mutated with
overflow-checked addition, and a per-regime weight configuration
`weights(regime) -> (depositWeight, liabilityWeight)`. -/
structure Bank where
  deposit_rate : I80F48
  liability_rate : I80F48
  total_deposit_shares : I80F48
  total_liability_shares : I80F48
  deposit_weight_init : I80F48
  liability_weight_init : I80F48
  deposit_weight_maint : I80F48
  liability_weight_maint : I80F48
deriving DecidableEq, Repr

namespace Bank

/-- Modelled from the spec: `depositAmount(shares) = shares * depositRate`,
checked. -/
def get_deposit_amount (bank : Bank) (shares : I80F48) : Option I80F48 :=
  shares.checked_mul bank.deposit_rate

/-- Modelled from the spec: `liabilityAmount(shares) = shares *
liabilityRate`, checked. -/
def get_liability_amount (bank : Bank) (shares : I80F48) : Option I80F48 :=
  shares.checked_mul bank.liability_rate

/-- Modelled from the spec: `depositShares(amount) = amount / depositRate`,
checked. -/
def get_deposit_shares (bank : Bank) (amount : I80F48) : Option I80F48 :=
  amount.checked_div bank.deposit_rate

/-- Modelled from the spec: `liabilityShares(amount) = amount /
liabilityRate`, checked. -/
def get_liability_shares (bank : Bank) (amount : I80F48) : Option I80F48 :=
  amount.checked_div bank.liability_rate

/-- Modelled from the spec: overflow-checked mutation of the bank's
aggregate deposit-share counter. -/
def change_deposit_shares (bank : Bank) (delta : I80F48) : Option Bank :=
  (bank.total_deposit_shares.checked_add delta).map
    fun s => { bank with total_deposit_shares := s }

/-- Modelled from the spec: overflow-checked mutation of the bank's
aggregate liability-share counter. -/
def change_liability_shares (bank : Bank) (delta : I80F48) : Option Bank :=
  (bank.total_liability_shares.checked_add delta).map
    fun s => { bank with total_liability_shares := s }

/-- Modelled from the spec: `weights(regime) -> (depositWeight,
liabilityWeight)` (source: `bank.config.get_weights(weight_type)`). -/
def get_weights (bank : Bank) : WeightType → I80F48 × I80F48
  | .initial => (bank.deposit_weight_init, bank.liability_weight_init)
  | .maintenance => (bank.deposit_weight_maint, bank.liability_weight_maint)

end Bank

/-- `Balance`: per-account, per-bank share counters. -/
structure Balance where
  bank_index : ℕ
  deposit_shares : I80F48
  liability_shares : I80F48
deriving DecidableEq, Repr

namespace Balance

/-- `Balance::change_deposit_shares`: checked add of a (signed) delta. -/
def change_deposit_shares (b : Balance) (delta : I80F48) : Option Balance :=
  (b.deposit_shares.checked_add delta).map
    fun s => { b with deposit_shares := s }

/-- `Balance::change_liability_shares`: checked add of a (signed) delta. -/
def change_liability_shares (b : Balance) (delta : I80F48) : Option Balance :=
  (b.liability_shares.checked_add delta).map
    fun s => { b with liability_shares := s }

end Balance

/-- `LendingAccount`: the fixed array of 16 optional balance slots,
embedded as a list of optional balances. -/
structure LendingAccount where
  balances : List (Option Balance)
deriving DecidableEq, Repr

namespace LendingAccount

/-- `get_first_empty_balance`: index of the first empty slot. -/
def get_first_empty_balance (acc : LendingAccount) : Option ℕ :=
  acc.balances.findIdx? fun b => b.isNone

/-- `get_active_balances_iter`: the active balances in slot order. -/
def get_active_balances (acc : LendingAccount) : List Balance :=
  acc.balances.filterMap id

end LendingAccount

/-- `BankAccountWrapper::find_or_create`, embedded as a function from the
bank index, the pool's bank list and the account to the bound slot index
and the (possibly extended) account.  The source looks the balance up by
its position in the active-balances iterator but then indexes the raw slot
array with that position and calls `.as_mut().unwrap()` on the slot, which
panics when the indexed slot is empty. -/
def find_or_create (bank_index : ℕ) (banks : List (Option Bank))
    (lending_account : LendingAccount) :
    MResult (ℕ × LendingAccount) := do
  match banks[bank_index]? with
  | none => .err .bankNotFound
  | some none => .err .bankNotFound
  | some (some _bank) =>
    let balance_index :=
      (lending_account.get_active_balances).findIdx?
        fun b => b.bank_index = bank_index
    match balance_index with
    | some index =>
      match lending_account.balances[index]? with
      | none => .err .lendingAccountBalanceNotFound
      | some slot =>
        match slot with
        | none => .panics
        | some _ => .ok (index, lending_account)
    | none =>
      match lending_account.get_first_empty_balance with
      | none => .err .lendingAccountBalanceSlotsFull
      | some empty_index =>
        .ok (empty_index,
          { balances :=
              lending_account.balances.set empty_index
                (some { bank_index := bank_index % 256
                        deposit_shares := I80F48.zero
                        liability_shares := I80F48.zero }) })

/-- `BankAccountWrapper::account_deposit`, with the in-place mutations made
explicit: the result carries both the returned `MarginfiResult` and the
balance/bank state as it stands when the function returns (mutations
applied before a failing step persist). -/
def account_deposit (bal : Balance) (bank : Bank) (amount : I80F48) :
    MResult Unit × Balance × Bank :=
  match bank.get_liability_amount bal.liability_shares with
  | none => (.err .mathError, bal, bank)
  | some liability_value =>
    match amount.checked_sub liability_value with
    | none => (.err .mathError, bal, bank)
    | some diff =>
      let deposit_value_delta := I80F48.max diff I80F48.zero
      let liability_replay_value_delta := I80F48.min liability_value amount
      match bank.get_deposit_shares deposit_value_delta with
      | none => (.err .mathError, bal, bank)
      | some deposit_shares_delta =>
        match bal.change_deposit_shares deposit_shares_delta with
        | none => (.err .mathError, bal, bank)
        | some bal1 =>
          match bank.change_deposit_shares deposit_shares_delta with
          | none => (.err .mathError, bal1, bank)
          | some bank1 =>
            match bank1.get_liability_shares liability_replay_value_delta with
            | none => (.err .mathError, bal1, bank1)
            | some liability_shares_delta =>
              match bal1.change_liability_shares
                  (I80F48.neg liability_shares_delta) with
              | none => (.err .mathError, bal1, bank1)
              | some bal2 =>
                match bank1.change_liability_shares
                    (I80F48.neg liability_shares_delta) with
                | none => (.err .mathError, bal2, bank1)
                | some bank2 => (.ok (), bal2, bank2)

/-- `BankAccountWrapper::account_credit_asset`, with the in-place mutations
made explicit as in `account_deposit`. -/
def account_credit_asset (bal : Balance) (bank : Bank) (amount : I80F48)
    (allow_borrow : Bool) : MResult Unit × Balance × Bank :=
  match bank.get_deposit_amount bal.deposit_shares with
  | none => (.err .mathError, bal, bank)
  | some deposit_value =>
    match amount.checked_sub deposit_value with
    | none => (.err .mathError, bal, bank)
    | some diff =>
      let deposit_remove_value_delta := I80F48.min deposit_value amount
      let liability_value_delta := I80F48.max diff I80F48.zero
      if allow_borrow = true ∨ liability_value_delta = I80F48.zero then
        match bank.get_deposit_shares deposit_remove_value_delta with
        | none => (.err .mathError, bal, bank)
        | some deposit_shares_delta =>
          match bal.change_deposit_shares (I80F48.neg deposit_shares_delta) with
          | none => (.err .mathError, bal, bank)
          | some bal1 =>
            match bank.change_deposit_shares
                (I80F48.neg deposit_shares_delta) with
            | none => (.err .mathError, bal1, bank)
            | some bank1 =>
              match bank1.get_liability_shares liability_value_delta with
              | none => (.err .mathError, bal1, bank1)
              | some liability_shares_delta =>
                match bal1.change_liability_shares liability_shares_delta with
                | none => (.err .mathError, bal1, bank1)
                | some bal2 =>
                  match bank1.change_liability_shares liability_shares_delta with
                  | none => (.err .mathError, bal2, bank1)
                  | some bank2 => (.ok (), bal2, bank2)
      else
        (.err .borrowingNotAllowed, bal, bank)

/-- `BankAccountWrapper::account_borrow`. -/
def account_borrow (bal : Balance) (bank : Bank) (amount : I80F48) :
    MResult Unit × Balance × Bank :=
  account_credit_asset bal bank amount true

/-- `BankAccountWrapper::account_withdraw`. -/
def account_withdraw (bal : Balance) (bank : Bank) (amount : I80F48) :
    MResult Unit × Balance × Bank :=
  account_credit_asset bal bank amount false

/-- `BankAccountWithPriceFeed`: one active balance joined with its bank and
the bank's current oracle price. -/
structure BankAccountWithPriceFeed where
  bank : Bank
  price_feed : Price
  balance : Balance
deriving DecidableEq, Repr

/-- `BankAccountWithPriceFeed::calc_weighted_assets_and_liabilities_values`.
Note that the source converts both the deposit shares and the liability
shares with `get_deposit_amount`. -/
def BankAccountWithPriceFeed.calc_weighted_assets_and_liabilities_values
    (a : BankAccountWithPriceFeed) (weight_type : WeightType) :
    MResult (I80F48 × I80F48) := do
  let deposits_qt ← liftMath (a.bank.get_deposit_amount a.balance.deposit_shares)
  let liabilities_qt ←
    liftMath (a.bank.get_deposit_amount a.balance.liability_shares)
  let w := a.bank.get_weights weight_type
  let av ← calc_asset_value deposits_qt a.price_feed (some w.1)
  let lv ← calc_asset_value liabilities_qt a.price_feed (some w.2)
  pure (av, lv)

/-- `BankAccountWithPriceFeed::load`: one entry per active balance, its
bank resolved by index with `.get(..).unwrap().as_ref().unwrap()` (panics
when absent).  The oracle price lookup is modelled as a total function from
the bank index to the feed's current price. -/
def load_bank_accounts (lending_account : LendingAccount)
    (banks : List (Option Bank)) (feed : ℕ → Price) :
    MResult (List BankAccountWithPriceFeed) :=
  go lending_account.get_active_balances
where
  go : List Balance → MResult (List BankAccountWithPriceFeed)
    | [] => .ok []
    | b :: rest => do
      match banks[b.bank_index]? with
      | none => .panics
      | some none => .panics
      | some (some bank) =>
        let tail ← go rest
        pure ({ bank := bank, price_feed := feed b.bank_index, balance := b }
          :: tail)

/-- The `try_fold` inside `RiskEngine::check_account_health`: checked
pairwise sums of the per-balance weighted values. -/
def total_weighted_values (accounts : List BankAccountWithPriceFeed)
    (requirement_type : RiskRequirementType) (acc : I80F48 × I80F48) :
    MResult (I80F48 × I80F48) :=
  match accounts with
  | [] => .ok acc
  | a :: rest => do
    let (assets, liabilities) ←
      a.calc_weighted_assets_and_liabilities_values
        requirement_type.to_weight_type
    let ta ← liftMath (acc.1.checked_add assets)
    let tl ← liftMath (acc.2.checked_add liabilities)
    total_weighted_values rest requirement_type (ta, tl)

/-- `RiskEngine::check_account_health`: passes only under the strict
inequality `total_weighted_assets > total_weighted_liabilities`. -/
def check_account_health (accounts : List BankAccountWithPriceFeed)
    (requirement_type : RiskRequirementType) : MResult Unit := do
  let totals ← total_weighted_values accounts requirement_type
    (I80F48.zero, I80F48.zero)
  if totals.2.raw < totals.1.raw then
    .ok ()
  else
    .err .badAccountHealth

/-- A sample bank: deposit exchange rate 1, liability exchange rate 2 (the
two pooled rates diverge once interest accrues), zero aggregate shares, and
every risk weight equal to 1. -/
def exampleBank : Bank :=
  ⟨I80F48.ofInt 1, I80F48.ofInt 2, I80F48.zero, I80F48.zero,
   I80F48.ofInt 1, I80F48.ofInt 1, I80F48.ofInt 1, I80F48.ofInt 1⟩

/-- `exampleBank` with its aggregate deposit-share counter at the largest
representable value, so that the bank-side deposit update overflows. -/
def exampleBankFull : Bank :=
  { exampleBank with total_deposit_shares := ⟨2 ^ 127 - 1⟩ }

/-- A healthy single-balance view: one unit of deposit shares, no
liabilities, priced at 1 (mantissa 1, exponent 6). -/
def exampleHealthyAccount : BankAccountWithPriceFeed :=
  ⟨exampleBank, ⟨1, 6⟩, ⟨0, I80F48.ofInt 1, I80F48.zero⟩⟩

/-- `exampleBank` with liability exchange rate 1 and its aggregate
liability-share counter at the most negative representable value, so that
the bank-side liability update in the repayment phase overflows after the
deposit phase has completed. -/
def exampleBankDebtFloor : Bank :=
  { exampleBank with
      liability_rate := I80F48.ofInt 1
      total_liability_shares := ⟨-(2 ^ 127)⟩ }

@[simp]
theorem MResult.ok_bind {α β : Type} (a : α) (f : α → MResult β) :
    (MResult.ok a >>= f) = f a := rfl

@[simp]
theorem MResult.err_bind {α β : Type} (e : MarginfiError) (f : α → MResult β) :
    (MResult.err e >>= f) = MResult.err e := rfl

@[simp]
theorem MResult.panics_bind {α β : Type} (f : α → MResult β) :
    (MResult.panics >>= f) = MResult.panics := rfl

@[simp]
theorem MResult.pure_eq {α : Type} (a : α) : (pure a : MResult α) = MResult.ok a := rfl

@[simp]
theorem liftMath_some {α : Type} (a : α) : liftMath (some a) = MResult.ok a := rfl

@[simp]
theorem liftMath_none {α : Type} : (liftMath none : MResult α) = MResult.err .mathError := rfl

@[simp]
theorem liftPanic_some {α : Type} (a : α) : liftPanic (some a) = MResult.ok a := rfl

@[simp]
theorem liftPanic_none {α : Type} : (liftPanic none : MResult α) = MResult.panics := rfl

/-- Table lookup within range: the entry is the exact power of ten. -/
theorem exp10_get (k : ℕ) (h : k ≤ 14) :
    EXP_10_I80F48[k]? = some (I80F48.ofInt (10 ^ k)) := by
  interval_cases k <;> rfl

/-- Table lookup beyond the range: the index misses the table. -/
theorem exp10_get_none (k : ℕ) (h : 14 < k) : EXP_10_I80F48[k]? = none := by
  apply List.getElem?_eq_none
  simp only [EXP_10_I80F48, List.length]
  omega

theorem I80F48.checked_mul_some {a b c : I80F48} (h : a.checked_mul b = some c) :
    c.raw = (a.raw * b.raw).fdiv I80F48.frac := by
  simp only [I80F48.checked_mul] at h
  split at h
  · exact congrArg I80F48.raw (Option.some_injective _ h).symm
  · exact absurd h (by simp)

theorem I80F48.checked_div_some {a b c : I80F48} (h : a.checked_div b = some c) :
    b.raw ≠ 0 ∧ c.raw = (a.raw * I80F48.frac).fdiv b.raw := by
  simp only [I80F48.checked_div] at h
  split at h
  · exact absurd h (by simp)
  · split at h
    · exact ⟨by assumption, congrArg I80F48.raw (Option.some_injective _ h).symm⟩
    · exact absurd h (by simp)

/-- C10: an account with no active balances loads as an empty view list,
and the health check then fails with the bad-health (UnhealthyAccount)
error for either regime, since the totals are `(0, 0)` and `0 > 0` fails. -/
theorem no_active_balances_unhealthy (acc : LendingAccount)
    (banks : List (Option Bank)) (feed : ℕ → Price) (rt : RiskRequirementType)
    (h : ∀ b ∈ acc.balances, b = none) :
    load_bank_accounts acc banks feed = .ok [] ∧
    check_account_health [] rt = .err .badAccountHealth := by
  constructor
  · have hempty : acc.get_active_balances = [] := by
      unfold LendingAccount.get_active_balances
      rw [List.filterMap_eq_nil_iff]
      intro b hb
      exact h b hb
    unfold load_bank_accounts
    rw [hempty]
    rfl
  · cases rt <;> rfl

/-- C10 witness: a two-slot account with both slots empty. -/
theorem no_active_balances_unhealthy_witness :
    load_bank_accounts ⟨[none, none]⟩ [] (fun _ => ⟨0, 0⟩) = .ok [] ∧
    check_account_health [] .initial = .err .badAccountHealth :=
  no_active_balances_unhealthy ⟨[none, none]⟩ [] (fun _ => ⟨0, 0⟩) .initial
    (by intro b hb; simpa using hb)

set_option maxRecDepth 8000 in
/-- C3 counterexample: at exponent `-9` the delta is `15 > 14`, and the
normalizer panics on the out-of-bounds table index instead of returning the
ArithmeticFault (math) error the claim asserts. -/
theorem pyth_price_out_of_table_panics :
    pyth_price_to_i80f48 ⟨100, -9⟩ = .panics ∧
    (MResult.panics : MResult I80F48) ≠ .err .mathError := by decide

/-- C3 (amended): when `|Δ| > 14` (with `Δ = 6 - expo`) the normalizer
panics on the table index — it aborts, it does not return an error; when
`|Δ| ≤ 14` it divides the mantissa by the exact power `10^|Δ|` if `Δ < 0`
and multiplies by `10^Δ` otherwise, with the checked multiply/divide
surfacing the math (ArithmeticFault) error on overflow. -/
theorem pyth_price_to_i80f48_spec (p : Price) :
    (14 < (EXPONENT - p.expo).natAbs → pyth_price_to_i80f48 p = .panics) ∧
    ((EXPONENT - p.expo).natAbs ≤ 14 →
      pyth_price_to_i80f48 p =
        if EXPONENT - p.expo < 0 then
          liftMath ((I80F48.ofInt p.price).checked_div
            (I80F48.ofInt (10 ^ (EXPONENT - p.expo).natAbs)))
        else
          liftMath ((I80F48.ofInt p.price).checked_mul
            (I80F48.ofInt (10 ^ (EXPONENT - p.expo).natAbs)))) := by
  constructor
  · intro h
    simp only [pyth_price_to_i80f48, exp10_get_none _ h, liftPanic_none,
      MResult.panics_bind]
  · intro h
    simp only [pyth_price_to_i80f48, exp10_get _ h, liftPanic_some,
      MResult.ok_bind]

/-- C3 witness: exponent `-9` panics; exponent `0` multiplies by `10^6`. -/
theorem pyth_price_to_i80f48_spec_witness :
    pyth_price_to_i80f48 ⟨5, -9⟩ = .panics ∧
    pyth_price_to_i80f48 ⟨5, 0⟩ =
      liftMath ((I80F48.ofInt 5).checked_mul (I80F48.ofInt (10 ^ 6))) := by
  refine ⟨(pyth_price_to_i80f48_spec ⟨5, -9⟩).1 (by decide), ?_⟩
  have h := (pyth_price_to_i80f48_spec ⟨5, 0⟩).2 (by decide)
  rw [if_neg (by decide)] at h
  exact h

set_option maxRecDepth 8000 in
/-- C4 counterexample: an overflow in the quantity-times-weight
multiplication hits the source's `checked_mul(..).unwrap()` and panics
instead of returning the ArithmeticFault (math) error the claim asserts. -/
theorem calc_asset_value_weight_overflow_panics :
    calc_asset_value ⟨2 ^ 126⟩ ⟨1, 6⟩ (some ⟨2 ^ 49⟩) = .panics ∧
    (MResult.panics : MResult I80F48) ≠ .err .mathError := by decide

/-- C4 (amended): with the price normalized and the exponent within the
table, an overflow of the multiplication of the (weighted or unweighted)
quantity by the price, or of the division by the decimal scale, returns
the math (ArithmeticFault) error to the caller — on both the weighted and
the unweighted path; but an overflow of the multiplication of the quantity
by the weight hits `checked_mul(..).unwrap()` and panics, aborting rather
than returning an error. -/
theorem calc_asset_value_fault_modes (q pr : I80F48) (p : Price)
    (hpr : pyth_price_to_i80f48 p = .ok pr) (hexpo : p.expo.natAbs ≤ 14) :
    (∀ w, q.checked_mul w = none → calc_asset_value q p (some w) = .panics) ∧
    (q.checked_mul pr = none → calc_asset_value q p none = .err .mathError) ∧
    (∀ m, q.checked_mul pr = some m →
      m.checked_div (I80F48.ofInt (10 ^ p.expo.natAbs)) = none →
      calc_asset_value q p none = .err .mathError) ∧
    (∀ w wq, q.checked_mul w = some wq → wq.checked_mul pr = none →
      calc_asset_value q p (some w) = .err .mathError) ∧
    (∀ w wq m, q.checked_mul w = some wq → wq.checked_mul pr = some m →
      m.checked_div (I80F48.ofInt (10 ^ p.expo.natAbs)) = none →
      calc_asset_value q p (some w) = .err .mathError) := by
  have hs := exp10_get _ hexpo
  refine ⟨?_, ?_, ?_, ?_, ?_⟩
  · intro w h
    unfold calc_asset_value
    rw [hpr, hs]
    simp [h]
  · intro h
    unfold calc_asset_value
    rw [hpr, hs]
    simp [h]
  · intro m hm hd
    unfold calc_asset_value
    rw [hpr, hs]
    simp [hm, hd]
  · intro w wq hw hm
    unfold calc_asset_value
    rw [hpr, hs]
    simp [hw, hm]
  · intro w wq m hw hm hd
    unfold calc_asset_value
    rw [hpr, hs]
    simp [hw, hm, hd]

set_option maxRecDepth 8000 in
/-- C4 witness: at price mantissa 100 (exponent 6) the quantity-times-price
multiplication overflows and the function returns the math
(ArithmeticFault) error, both without a weight and with weight 1 (whose
weight multiplication itself succeeds). -/
theorem calc_asset_value_fault_modes_witness :
    calc_asset_value ⟨2 ^ 126⟩ ⟨100, 6⟩ none = .err .mathError ∧
    calc_asset_value ⟨2 ^ 126⟩ ⟨100, 6⟩ (some (I80F48.ofInt 1)) =
      .err .mathError :=
  ⟨(calc_asset_value_fault_modes ⟨2 ^ 126⟩ (I80F48.ofInt 100) ⟨100, 6⟩
      (by decide) (by decide)).2.1 (by decide),
   (calc_asset_value_fault_modes ⟨2 ^ 126⟩ (I80F48.ofInt 100) ⟨100, 6⟩
      (by decide) (by decide)).2.2.2.1 (I80F48.ofInt 1) ⟨2 ^ 126⟩
      (by decide) (by decide)⟩

set_option maxRecDepth 8000 in
/-- C1 evidence: with a deposit exchange rate of 1 and a liability exchange
rate of 2, one unit of liability shares is valued through
`get_deposit_amount` and comes out as value `10^6` (price 1 at exponent 0,
weight 1), whereas the liability exchange-rate function gives amount 2 and
value `2 * 10^6`.  The source converts liability shares with the deposit
exchange-rate function, not the liability one. -/
theorem calc_weighted_uses_deposit_rate_for_liabilities :
    BankAccountWithPriceFeed.calc_weighted_assets_and_liabilities_values
      ⟨exampleBank, ⟨1, 0⟩, ⟨0, I80F48.zero, I80F48.ofInt 1⟩⟩ .initial
      = .ok (I80F48.zero, I80F48.ofInt 1000000) ∧
    exampleBank.get_liability_amount (I80F48.ofInt 1) = some (I80F48.ofInt 2) ∧
    calc_asset_value (I80F48.ofInt 2) ⟨1, 0⟩ (some (I80F48.ofInt 1)) =
      .ok (I80F48.ofInt 2000000) ∧
    I80F48.ofInt 1000000 ≠ I80F48.ofInt 2000000 := by decide

set_option maxRecDepth 8000 in
/-- C5 evidence: the lookup position comes from the active-balances
iterator but is used to index the raw slot array.  With an empty slot
before the existing balance the call panics (`as_mut().unwrap()` on an
empty slot); with another active balance in between it binds a different
bank's balance (slot 1, which belongs to bank 1) instead of the requested
bank 0's balance (slot 2). -/
theorem find_or_create_misindexes_active_position :
    find_or_create 0 [some exampleBank]
      ⟨[none, some ⟨0, I80F48.zero, I80F48.zero⟩]⟩ = .panics ∧
    (find_or_create 0 [some exampleBank, some exampleBank]
      ⟨[none, some ⟨1, I80F48.ofInt 7, I80F48.zero⟩,
        some ⟨0, I80F48.zero, I80F48.zero⟩]⟩ =
      .ok (1, ⟨[none, some ⟨1, I80F48.ofInt 7, I80F48.zero⟩,
        some ⟨0, I80F48.zero, I80F48.zero⟩]⟩)) ∧
    (some ⟨1, I80F48.ofInt 7, I80F48.zero⟩ : Option Balance) ≠
      some ⟨0, I80F48.zero, I80F48.zero⟩ := by decide

set_option maxRecDepth 8000 in
/-- C2 counterexample: depositing 1 into a bank whose aggregate
deposit-share counter is at the maximum produces a math (ArithmeticFault)
error return, yet the balance's deposit shares have already been mutated
from 0 to 1 — the error return leaves observable intermediate mutations;
rollback happens only at the enclosing transaction. -/
theorem account_deposit_partial_write_on_error :
    account_deposit ⟨0, I80F48.zero, I80F48.zero⟩ exampleBankFull
      (I80F48.ofInt 1) =
      (.err .mathError, ⟨0, I80F48.ofInt 1, I80F48.zero⟩, exampleBankFull) ∧
    (⟨0, I80F48.ofInt 1, I80F48.zero⟩ : Balance) ≠ ⟨0, I80F48.zero, I80F48.zero⟩ := by
  decide

theorem I80F48.checked_add_some {a b c : I80F48} (h : a.checked_add b = some c) :
    c.raw = a.raw + b.raw := by
  simp only [I80F48.checked_add] at h
  split at h
  · exact congrArg I80F48.raw (Option.some_injective _ h).symm
  · exact absurd h (by simp)

theorem I80F48.max_nonneg_zero {a : I80F48} (h : 0 ≤ a.raw) :
    I80F48.max a I80F48.zero = a := by
  unfold I80F48.max
  by_cases hz : a.raw ≤ I80F48.zero.raw
  · rw [if_pos hz]
    have : a.raw = 0 := le_antisymm hz h
    cases a
    simpa [I80F48.zero] using this.symm
  · rw [if_neg hz]

theorem I80F48.max_nonpos_zero {a : I80F48} (h : a.raw ≤ 0) :
    I80F48.max a I80F48.zero = I80F48.zero := by
  unfold I80F48.max
  exact if_pos h

theorem I80F48.min_zero_nonneg {b : I80F48} (h : 0 ≤ b.raw) :
    I80F48.min I80F48.zero b = I80F48.zero := by
  unfold I80F48.min
  exact if_pos h

theorem I80F48.min_of_lt {a b : I80F48} (h : b.raw < a.raw) :
    I80F48.min a b = b := by
  unfold I80F48.min
  exact if_neg (by omega)

theorem Balance.change_deposit_shares_some {b : Balance} {d : I80F48}
    {b1 : Balance} (h : b.change_deposit_shares d = some b1) :
    b1.deposit_shares.raw = b.deposit_shares.raw + d.raw ∧
    b1.liability_shares = b.liability_shares ∧
    b1.bank_index = b.bank_index := by
  simp only [Balance.change_deposit_shares] at h
  cases hc : b.deposit_shares.checked_add d with
  | none => rw [hc] at h; simp at h
  | some s =>
    rw [hc] at h
    simp only [Option.map_some', Option.some.injEq] at h
    subst h
    exact ⟨I80F48.checked_add_some hc, rfl, rfl⟩

theorem Balance.change_liability_shares_some {b : Balance} {d : I80F48}
    {b1 : Balance} (h : b.change_liability_shares d = some b1) :
    b1.liability_shares.raw = b.liability_shares.raw + d.raw ∧
    b1.deposit_shares = b.deposit_shares ∧
    b1.bank_index = b.bank_index := by
  simp only [Balance.change_liability_shares] at h
  cases hc : b.liability_shares.checked_add d with
  | none => rw [hc] at h; simp at h
  | some s =>
    rw [hc] at h
    simp only [Option.map_some', Option.some.injEq] at h
    subst h
    exact ⟨I80F48.checked_add_some hc, rfl, rfl⟩

theorem Bank.change_deposit_total_some {b : Bank} {d : I80F48} {b1 : Bank}
    (h : b.change_deposit_shares d = some b1) :
    b1.total_deposit_shares.raw = b.total_deposit_shares.raw + d.raw ∧
    b1.total_liability_shares = b.total_liability_shares := by
  simp only [Bank.change_deposit_shares] at h
  cases hc : b.total_deposit_shares.checked_add d with
  | none => rw [hc] at h; simp at h
  | some s =>
    rw [hc] at h
    simp only [Option.map_some', Option.some.injEq] at h
    subst h
    exact ⟨I80F48.checked_add_some hc, rfl⟩

theorem Bank.change_liability_total_some {b : Bank} {d : I80F48} {b1 : Bank}
    (h : b.change_liability_shares d = some b1) :
    b1.total_liability_shares.raw = b.total_liability_shares.raw + d.raw ∧
    b1.total_deposit_shares = b.total_deposit_shares := by
  simp only [Bank.change_liability_shares] at h
  cases hc : b.total_liability_shares.checked_add d with
  | none => rw [hc] at h; simp at h
  | some s =>
    rw [hc] at h
    simp only [Option.map_some', Option.some.injEq] at h
    subst h
    exact ⟨I80F48.checked_add_some hc, rfl⟩

/-- C2 (amended): any fault raised at a step before the first successful
share mutation returns with the Balance and the bank aggregates exactly as
they were — for withdraw/borrow: the deposit-value computation, the split
subtraction, the `BorrowingNotAllowed` check, the deposit-share conversion
of the split, a failing balance-side deposit update; for deposit: the
liability-value computation, the split subtraction, the deposit-share
conversion, a failing balance-side deposit update.  After the balance-side
deposit update succeeded, a failing bank-side deposit update returns with
that balance mutation applied; and once both deposit-side updates
succeeded, any error return from the liability phase leaves the
deposit-side mutations of balance and bank observable.  All-or-nothing
behavior is supplied by the hosting transaction (spec section 5), not by
these routines. -/
theorem faults_before_mutation_preserve_state :
    (∀ (bal : Balance) (bank : Bank) (amount : I80F48) (ab : Bool),
      (bank.get_deposit_amount bal.deposit_shares = none →
        account_credit_asset bal bank amount ab = (.err .mathError, bal, bank)) ∧
      (∀ dv, bank.get_deposit_amount bal.deposit_shares = some dv →
        amount.checked_sub dv = none →
        account_credit_asset bal bank amount ab = (.err .mathError, bal, bank)) ∧
      ((account_credit_asset bal bank amount ab).1 = .err .borrowingNotAllowed →
        (account_credit_asset bal bank amount ab).2 = (bal, bank)) ∧
      (∀ dv diff, bank.get_deposit_amount bal.deposit_shares = some dv →
        amount.checked_sub dv = some diff →
        (ab = true ∨ I80F48.max diff I80F48.zero = I80F48.zero) →
        bank.get_deposit_shares (I80F48.min dv amount) = none →
        account_credit_asset bal bank amount ab = (.err .mathError, bal, bank)) ∧
      (∀ dv diff dsd, bank.get_deposit_amount bal.deposit_shares = some dv →
        amount.checked_sub dv = some diff →
        (ab = true ∨ I80F48.max diff I80F48.zero = I80F48.zero) →
        bank.get_deposit_shares (I80F48.min dv amount) = some dsd →
        bal.change_deposit_shares (I80F48.neg dsd) = none →
        account_credit_asset bal bank amount ab = (.err .mathError, bal, bank)) ∧
      (∀ dv diff dsd bal1, bank.get_deposit_amount bal.deposit_shares = some dv →
        amount.checked_sub dv = some diff →
        (ab = true ∨ I80F48.max diff I80F48.zero = I80F48.zero) →
        bank.get_deposit_shares (I80F48.min dv amount) = some dsd →
        bal.change_deposit_shares (I80F48.neg dsd) = some bal1 →
        bank.change_deposit_shares (I80F48.neg dsd) = none →
        account_credit_asset bal bank amount ab = (.err .mathError, bal1, bank)) ∧
      (∀ dv diff dsd bal1 bank1 e,
        bank.get_deposit_amount bal.deposit_shares = some dv →
        amount.checked_sub dv = some diff →
        (ab = true ∨ I80F48.max diff I80F48.zero = I80F48.zero) →
        bank.get_deposit_shares (I80F48.min dv amount) = some dsd →
        bal.change_deposit_shares (I80F48.neg dsd) = some bal1 →
        bank.change_deposit_shares (I80F48.neg dsd) = some bank1 →
        (account_credit_asset bal bank amount ab).1 = .err e →
        (account_credit_asset bal bank amount ab).2.1.deposit_shares =
          bal1.deposit_shares ∧
        (account_credit_asset bal bank amount ab).2.2.total_deposit_shares =
          bank1.total_deposit_shares)) ∧
    (∀ (bal : Balance) (bank : Bank) (amount : I80F48),
      (bank.get_liability_amount bal.liability_shares = none →
        account_deposit bal bank amount = (.err .mathError, bal, bank)) ∧
      (∀ lv, bank.get_liability_amount bal.liability_shares = some lv →
        amount.checked_sub lv = none →
        account_deposit bal bank amount = (.err .mathError, bal, bank)) ∧
      (∀ lv diff, bank.get_liability_amount bal.liability_shares = some lv →
        amount.checked_sub lv = some diff →
        bank.get_deposit_shares (I80F48.max diff I80F48.zero) = none →
        account_deposit bal bank amount = (.err .mathError, bal, bank)) ∧
      (∀ lv diff dsd, bank.get_liability_amount bal.liability_shares = some lv →
        amount.checked_sub lv = some diff →
        bank.get_deposit_shares (I80F48.max diff I80F48.zero) = some dsd →
        bal.change_deposit_shares dsd = none →
        account_deposit bal bank amount = (.err .mathError, bal, bank)) ∧
      (∀ lv diff dsd bal1, bank.get_liability_amount bal.liability_shares = some lv →
        amount.checked_sub lv = some diff →
        bank.get_deposit_shares (I80F48.max diff I80F48.zero) = some dsd →
        bal.change_deposit_shares dsd = some bal1 →
        bank.change_deposit_shares dsd = none →
        account_deposit bal bank amount = (.err .mathError, bal1, bank)) ∧
      (∀ lv diff dsd bal1 bank1 e,
        bank.get_liability_amount bal.liability_shares = some lv →
        amount.checked_sub lv = some diff →
        bank.get_deposit_shares (I80F48.max diff I80F48.zero) = some dsd →
        bal.change_deposit_shares dsd = some bal1 →
        bank.change_deposit_shares dsd = some bank1 →
        (account_deposit bal bank amount).1 = .err e →
        (account_deposit bal bank amount).2.1.deposit_shares =
          bal1.deposit_shares ∧
        (account_deposit bal bank amount).2.2.total_deposit_shares =
          bank1.total_deposit_shares)) := by
  constructor
  · intro bal bank amount ab
    refine ⟨?_, ?_, ?_, ?_, ?_, ?_, ?_⟩
    · intro hda
      unfold account_credit_asset
      simp only [hda]
    · intro dv hda hsub
      unfold account_credit_asset
      simp only [hda, hsub]
    · intro h
      unfold account_credit_asset at h ⊢
      cases hda : bank.get_deposit_amount bal.deposit_shares with
      | none => simp [hda] at h
      | some dv =>
        simp only [hda] at h ⊢
        cases hsub : amount.checked_sub dv with
        | none => simp [hsub] at h
        | some diff =>
          simp only [hsub] at h ⊢
          by_cases hb : ab = true ∨ I80F48.max diff I80F48.zero = I80F48.zero
          · exfalso
            rw [if_pos hb] at h
            cases h1 : bank.get_deposit_shares (I80F48.min dv amount) with
            | none => simp [h1] at h
            | some dsd =>
              simp only [h1] at h
              cases h2 : bal.change_deposit_shares (I80F48.neg dsd) with
              | none => simp [h2] at h
              | some bal1 =>
                simp only [h2] at h
                cases h3 : bank.change_deposit_shares (I80F48.neg dsd) with
                | none => simp [h3] at h
                | some bank1 =>
                  simp only [h3] at h
                  cases h4 : bank1.get_liability_shares (I80F48.max diff I80F48.zero) with
                  | none => simp [h4] at h
                  | some lsd =>
                    simp only [h4] at h
                    cases h5 : bal1.change_liability_shares lsd with
                    | none => simp [h5] at h
                    | some bal2 =>
                      simp only [h5] at h
                      cases h6 : bank1.change_liability_shares lsd with
                      | none => simp [h6] at h
                      | some bank2 => simp [h6] at h
          · rw [if_neg hb]
    · intro dv diff hda hsub hcond h1
      unfold account_credit_asset
      simp only [hda, hsub]
      rw [if_pos hcond]
      simp only [h1]
    · intro dv diff dsd hda hsub hcond h1 h2
      unfold account_credit_asset
      simp only [hda, hsub]
      rw [if_pos hcond]
      simp only [h1, h2]
    · intro dv diff dsd bal1 hda hsub hcond h1 h2 h3
      unfold account_credit_asset
      simp only [hda, hsub]
      rw [if_pos hcond]
      simp only [h1, h2, h3]
    · intro dv diff dsd bal1 bank1 e hda hsub hcond h1 h2 h3 herr
      unfold account_credit_asset at herr ⊢
      simp only [hda, hsub] at herr ⊢
      rw [if_pos hcond] at herr ⊢
      simp only [h1, h2, h3] at herr ⊢
      cases h4 : bank1.get_liability_shares (I80F48.max diff I80F48.zero) with
      | none =>
        simp only [h4]
        exact ⟨trivial, trivial⟩
      | some lsd =>
        simp only [h4] at herr ⊢
        cases h5 : bal1.change_liability_shares lsd with
        | none =>
          simp only [h5]
          exact ⟨trivial, trivial⟩
        | some bal2 =>
          simp only [h5] at herr ⊢
          cases h6 : bank1.change_liability_shares lsd with
          | none =>
            simp only [h6]
            exact ⟨(Balance.change_liability_shares_some h5).2.1, trivial⟩
          | some bank2 =>
            simp only [h6] at herr
            exact absurd herr (by simp)
  · intro bal bank amount
    refine ⟨?_, ?_, ?_, ?_, ?_, ?_⟩
    · intro hlv
      unfold account_deposit
      simp only [hlv]
    · intro lv hlv hsub
      unfold account_deposit
      simp only [hlv, hsub]
    · intro lv diff hlv hsub h1
      unfold account_deposit
      simp only [hlv, hsub, h1]
    · intro lv diff dsd hlv hsub h1 h2
      unfold account_deposit
      simp only [hlv, hsub, h1, h2]
    · intro lv diff dsd bal1 hlv hsub h1 h2 h3
      unfold account_deposit
      simp only [hlv, hsub, h1, h2, h3]
    · intro lv diff dsd bal1 bank1 e hlv hsub h1 h2 h3 herr
      unfold account_deposit at herr ⊢
      simp only [hlv, hsub, h1, h2, h3] at herr ⊢
      cases h4 : bank1.get_liability_shares (I80F48.min lv amount) with
      | none =>
        simp only [h4]
        exact ⟨trivial, trivial⟩
      | some lsd =>
        simp only [h4] at herr ⊢
        cases h5 : bal1.change_liability_shares (I80F48.neg lsd) with
        | none =>
          simp only [h5]
          exact ⟨trivial, trivial⟩
        | some bal2 =>
          simp only [h5] at herr ⊢
          cases h6 : bank1.change_liability_shares (I80F48.neg lsd) with
          | none =>
            simp only [h6]
            exact ⟨(Balance.change_liability_shares_some h5).2.1, trivial⟩
          | some bank2 =>
            simp only [h6] at herr
            exact absurd herr (by simp)

set_option maxRecDepth 8000 in
/-- C2 witness: a rejected withdraw (deposit value 1, requested amount 2)
returns `BorrowingNotAllowed` with balance and bank untouched; and a
deposit of 2 against 1 unit of liability shares on the debt-floor bank
errors in the bank-side liability update of the repayment phase with the
deposit-side mutation (one unit of deposit shares) still applied. -/
theorem faults_before_mutation_preserve_state_witness :
    ((account_credit_asset ⟨0, I80F48.ofInt 1, I80F48.zero⟩ exampleBank
      (I80F48.ofInt 2) false).1 = .err .borrowingNotAllowed ∧
     (account_credit_asset ⟨0, I80F48.ofInt 1, I80F48.zero⟩ exampleBank
      (I80F48.ofInt 2) false).2 = (⟨0, I80F48.ofInt 1, I80F48.zero⟩, exampleBank)) ∧
    ((account_deposit ⟨0, I80F48.zero, I80F48.ofInt 1⟩ exampleBankDebtFloor
      (I80F48.ofInt 2)).1 = .err .mathError ∧
     (account_deposit ⟨0, I80F48.zero, I80F48.ofInt 1⟩ exampleBankDebtFloor
      (I80F48.ofInt 2)).2.1.deposit_shares = I80F48.ofInt 1) :=
  ⟨⟨by decide,
    (faults_before_mutation_preserve_state.1 ⟨0, I80F48.ofInt 1, I80F48.zero⟩
      exampleBank (I80F48.ofInt 2) false).2.2.1 (by decide)⟩,
   ⟨by decide,
    ((faults_before_mutation_preserve_state.2 ⟨0, I80F48.zero, I80F48.ofInt 1⟩
      exampleBankDebtFloor (I80F48.ofInt 2)).2.2.2.2.2 (I80F48.ofInt 1)
      (I80F48.ofInt 1) (I80F48.ofInt 1) ⟨0, I80F48.ofInt 1, I80F48.ofInt 1⟩
      { exampleBankDebtFloor with total_deposit_shares := I80F48.ofInt 1 }
      .mathError (by decide) (by decide) (by decide) (by decide) (by decide)
      (by decide)).1⟩⟩

theorem I80F48.checked_sub_some {a b c : I80F48} (h : a.checked_sub b = some c) :
    c.raw = a.raw - b.raw := by
  simp only [I80F48.checked_sub] at h
  split at h
  · exact congrArg I80F48.raw (Option.some_injective _ h).symm
  · exact absurd h (by simp)

theorem I80F48.max_zero_eq_zero_iff (a : I80F48) :
    I80F48.max a I80F48.zero = I80F48.zero ↔ a.raw ≤ 0 := by
  simp only [I80F48.max, I80F48.zero]
  by_cases h : a.raw ≤ (0 : ℤ)
  · simp [h]
  · rw [if_neg (by simpa using h)]
    constructor
    · intro hh
      have : a.raw = 0 := congrArg I80F48.raw hh
      omega
    · intro hh
      exact absurd hh h

/-- The `BorrowingNotAllowed` rejection in `account_credit_asset` fires
exactly when the allow-borrow flag is off and the borrow split is
non-zero; no other step of the routine produces that error. -/
theorem credit_asset_err_borrow_iff (bal : Balance) (bank : Bank)
    (amount dv diff : I80F48) (ab : Bool)
    (hda : bank.get_deposit_amount bal.deposit_shares = some dv)
    (hsub : amount.checked_sub dv = some diff) :
    ((account_credit_asset bal bank amount ab).1 = .err .borrowingNotAllowed ↔
      ¬(ab = true ∨ I80F48.max diff I80F48.zero = I80F48.zero)) := by
  unfold account_credit_asset
  simp only [hda, hsub]
  by_cases hb : ab = true ∨ I80F48.max diff I80F48.zero = I80F48.zero
  · rw [if_pos hb]
    simp only [hb, not_true_eq_false, iff_false]
    cases h1 : bank.get_deposit_shares (I80F48.min dv amount) with
    | none => simp [h1]
    | some dsd =>
      simp only [h1]
      cases h2 : bal.change_deposit_shares (I80F48.neg dsd) with
      | none => simp [h2]
      | some bal1 =>
        simp only [h2]
        cases h3 : bank.change_deposit_shares (I80F48.neg dsd) with
        | none => simp [h3]
        | some bank1 =>
          simp only [h3]
          cases h4 : bank1.get_liability_shares (I80F48.max diff I80F48.zero) with
          | none => simp [h4]
          | some lsd =>
            simp only [h4]
            cases h5 : bal1.change_liability_shares lsd with
            | none => simp [h5]
            | some bal2 =>
              simp only [h5]
              cases h6 : bank1.change_liability_shares lsd with
              | none => simp [h6]
              | some bank2 => simp [h6]
  · rw [if_neg hb]
    simp [hb]

/-- C6: with the deposit value and the checked subtraction defined,
`account_withdraw` fails with `BorrowingNotAllowed` exactly when the
requested amount exceeds the current deposit value; and under the same
state `account_borrow` succeeds, removing the deposit shares converted
from `min(depositValue, amount)` and adding the liability shares converted
from `max(amount - depositValue, 0)`. -/
theorem withdraw_rejects_borrow_succeeds :
    (∀ (bal : Balance) (bank : Bank) (amount dv diff : I80F48),
      bank.get_deposit_amount bal.deposit_shares = some dv →
      amount.checked_sub dv = some diff →
      ((account_withdraw bal bank amount).1 = .err .borrowingNotAllowed ↔
        dv.raw < amount.raw)) ∧
    (∀ (bal : Balance) (bank : Bank) (amount dv diff dsd : I80F48)
      (bal1 : Balance) (bank1 : Bank) (lsd : I80F48) (bal2 : Balance)
      (bank2 : Bank),
      bank.get_deposit_amount bal.deposit_shares = some dv →
      amount.checked_sub dv = some diff →
      bank.get_deposit_shares (I80F48.min dv amount) = some dsd →
      bal.change_deposit_shares (I80F48.neg dsd) = some bal1 →
      bank.change_deposit_shares (I80F48.neg dsd) = some bank1 →
      bank1.get_liability_shares (I80F48.max diff I80F48.zero) = some lsd →
      bal1.change_liability_shares lsd = some bal2 →
      bank1.change_liability_shares lsd = some bank2 →
      account_borrow bal bank amount = (.ok (), bal2, bank2)) := by
  constructor
  · intro bal bank amount dv diff hda hsub
    unfold account_withdraw
    rw [credit_asset_err_borrow_iff bal bank amount dv diff false hda hsub]
    have hdiff : diff.raw = amount.raw - dv.raw := I80F48.checked_sub_some hsub
    simp only [Bool.false_eq_true, false_or, I80F48.max_zero_eq_zero_iff, hdiff]
    omega
  · intro bal bank amount dv diff dsd bal1 bank1 lsd bal2 bank2
      hda hsub h1 h2 h3 h4 h5 h6
    unfold account_borrow account_credit_asset
    simp only [hda, hsub]
    rw [if_pos (Or.inl trivial)]
    simp only [h1, h2, h3, h4, h5, h6]

set_option maxRecDepth 8000 in
/-- C6 witness: deposit value 1, requested amount 2 — withdraw is rejected
with `BorrowingNotAllowed`; borrow succeeds, drawing the whole deposit
(1 unit of deposit shares) and creating 0.5 liability shares for the
shortfall of 1 at liability exchange rate 2. -/
theorem withdraw_rejects_borrow_succeeds_witness :
    (account_withdraw ⟨0, I80F48.ofInt 1, I80F48.zero⟩ exampleBank
      (I80F48.ofInt 2)).1 = .err .borrowingNotAllowed ∧
    account_borrow ⟨0, I80F48.ofInt 1, I80F48.zero⟩ exampleBank
      (I80F48.ofInt 2) =
      (.ok (), ⟨0, ⟨0⟩, ⟨140737488355328⟩⟩,
        { exampleBank with
            total_deposit_shares := ⟨-281474976710656⟩
            total_liability_shares := ⟨140737488355328⟩ }) :=
  ⟨(withdraw_rejects_borrow_succeeds.1 ⟨0, I80F48.ofInt 1, I80F48.zero⟩
      exampleBank (I80F48.ofInt 2) (I80F48.ofInt 1) (I80F48.ofInt 1)
      (by decide) (by decide)).mpr (by decide),
   withdraw_rejects_borrow_succeeds.2 ⟨0, I80F48.ofInt 1, I80F48.zero⟩
      exampleBank (I80F48.ofInt 2) (I80F48.ofInt 1) (I80F48.ofInt 1)
      (I80F48.ofInt 1) ⟨0, ⟨0⟩, I80F48.zero⟩
      { exampleBank with total_deposit_shares := ⟨-281474976710656⟩ }
      ⟨140737488355328⟩ ⟨0, ⟨0⟩, ⟨140737488355328⟩⟩
      { exampleBank with
          total_deposit_shares := ⟨-281474976710656⟩
          total_liability_shares := ⟨140737488355328⟩ }
      (by decide) (by decide) (by decide) (by decide) (by decide) (by decide)
      (by decide) (by decide)⟩

set_option maxRecDepth 8000 in
theorem I80F48.zero_checked_mul (b : I80F48) :
    I80F48.zero.checked_mul b = some I80F48.zero := by
  have h0 : (I80F48.zero.raw * b.raw).fdiv I80F48.frac = 0 := by
    simp [I80F48.zero, Int.zero_fdiv]
  simp only [I80F48.checked_mul, h0]
  rw [if_pos (by decide)]
  rfl

/-- C7: `account_deposit` splits the amount into debt repayment and new
deposit.  First conjunct (general): the applied deltas are exactly the
conversions of `max(amount - liabilityValue, 0)` (new deposit) and
`min(liabilityValue, amount)` (repayment).  Second conjunct: with zero
liability shares the whole amount is converted by `depositShares` and
added to the balance's and the bank's deposit shares, and the liability
shares are unchanged.  Third conjunct: with `amount < liabilityValue` no
deposit shares are added and the debt drops by exactly
`liabilityShares(amount)` on the balance and the bank. -/
theorem account_deposit_split :
    (∀ (bal : Balance) (bank : Bank) (amount lv diff dsd : I80F48)
      (bal1 : Balance) (bank1 : Bank) (lsd : I80F48) (bal2 : Balance)
      (bank2 : Bank),
      bank.get_liability_amount bal.liability_shares = some lv →
      amount.checked_sub lv = some diff →
      bank.get_deposit_shares (I80F48.max diff I80F48.zero) = some dsd →
      bal.change_deposit_shares dsd = some bal1 →
      bank.change_deposit_shares dsd = some bank1 →
      bank1.get_liability_shares (I80F48.min lv amount) = some lsd →
      bal1.change_liability_shares (I80F48.neg lsd) = some bal2 →
      bank1.change_liability_shares (I80F48.neg lsd) = some bank2 →
      account_deposit bal bank amount = (.ok (), bal2, bank2)) ∧
    (∀ (bal : Balance) (bank : Bank) (amount dsd : I80F48) (bal1 : Balance)
      (bank1 : Bank) (bal2 : Balance) (bank2 : Bank),
      bal.liability_shares = I80F48.zero →
      0 ≤ amount.raw →
      amount.checked_sub I80F48.zero = some amount →
      bank.get_deposit_shares amount = some dsd →
      bal.change_deposit_shares dsd = some bal1 →
      bank.change_deposit_shares dsd = some bank1 →
      bank1.get_liability_shares I80F48.zero = some I80F48.zero →
      bal1.change_liability_shares (I80F48.neg I80F48.zero) = some bal2 →
      bank1.change_liability_shares (I80F48.neg I80F48.zero) = some bank2 →
      account_deposit bal bank amount = (.ok (), bal2, bank2) ∧
      bal2.deposit_shares.raw = bal.deposit_shares.raw + dsd.raw ∧
      bal2.liability_shares.raw = bal.liability_shares.raw ∧
      bank2.total_deposit_shares.raw = bank.total_deposit_shares.raw + dsd.raw ∧
      bank2.total_liability_shares.raw = bank.total_liability_shares.raw) ∧
    (∀ (bal : Balance) (bank : Bank) (amount lv diff lsd : I80F48)
      (bal1 : Balance) (bank1 : Bank) (bal2 : Balance) (bank2 : Bank),
      bank.get_liability_amount bal.liability_shares = some lv →
      amount.checked_sub lv = some diff →
      amount.raw < lv.raw →
      bank.get_deposit_shares I80F48.zero = some I80F48.zero →
      bal.change_deposit_shares I80F48.zero = some bal1 →
      bank.change_deposit_shares I80F48.zero = some bank1 →
      bank1.get_liability_shares amount = some lsd →
      bal1.change_liability_shares (I80F48.neg lsd) = some bal2 →
      bank1.change_liability_shares (I80F48.neg lsd) = some bank2 →
      account_deposit bal bank amount = (.ok (), bal2, bank2) ∧
      bal2.deposit_shares.raw = bal.deposit_shares.raw ∧
      bal2.liability_shares.raw = bal.liability_shares.raw - lsd.raw ∧
      bank2.total_deposit_shares.raw = bank.total_deposit_shares.raw ∧
      bank2.total_liability_shares.raw = bank.total_liability_shares.raw - lsd.raw) := by
  refine ⟨?_, ?_, ?_⟩
  · intro bal bank amount lv diff dsd bal1 bank1 lsd bal2 bank2
      hlv hsub h3 h4 h5 h6 h7 h8
    unfold account_deposit
    simp only [hlv, hsub, h3, h4, h5, h6, h7, h8]
  · intro bal bank amount dsd bal1 bank1 bal2 bank2
      hz hpos hsub h4 h5 h6 h7 h8 h9
    have hlv : bank.get_liability_amount bal.liability_shares =
        some I80F48.zero := by
      unfold Bank.get_liability_amount
      rw [hz]
      exact I80F48.zero_checked_mul _
    have hmax : I80F48.max amount I80F48.zero = amount :=
      I80F48.max_nonneg_zero hpos
    have hmin : I80F48.min I80F48.zero amount = I80F48.zero :=
      I80F48.min_zero_nonneg hpos
    obtain ⟨e1, e2, -⟩ := Balance.change_deposit_shares_some h5
    obtain ⟨e3, e4, -⟩ := Balance.change_liability_shares_some h8
    obtain ⟨f1, f2⟩ := Bank.change_deposit_total_some h6
    obtain ⟨f3, f4⟩ := Bank.change_liability_total_some h9
    have e2r := congrArg I80F48.raw e2
    have e4r := congrArg I80F48.raw e4
    have f2r := congrArg I80F48.raw f2
    have f4r := congrArg I80F48.raw f4
    have hnz : (I80F48.neg I80F48.zero).raw = 0 := rfl
    refine ⟨?_, by omega, by omega, by omega, by omega⟩
    unfold account_deposit
    simp only [hlv, hsub, hmax, hmin, h4, h5, h6, h7, h8, h9]
  · intro bal bank amount lv diff lsd bal1 bank1 bal2 bank2
      hlv hsub hlt h4 h5 h6 h7 h8 h9
    have hdr : diff.raw = amount.raw - lv.raw := I80F48.checked_sub_some hsub
    have hmax : I80F48.max diff I80F48.zero = I80F48.zero :=
      I80F48.max_nonpos_zero (by omega)
    have hmin : I80F48.min lv amount = amount := I80F48.min_of_lt hlt
    obtain ⟨e1, e2, -⟩ := Balance.change_deposit_shares_some h5
    obtain ⟨e3, e4, -⟩ := Balance.change_liability_shares_some h8
    obtain ⟨f1, f2⟩ := Bank.change_deposit_total_some h6
    obtain ⟨f3, f4⟩ := Bank.change_liability_total_some h9
    have e2r := congrArg I80F48.raw e2
    have e4r := congrArg I80F48.raw e4
    have f2r := congrArg I80F48.raw f2
    have f4r := congrArg I80F48.raw f4
    have hz0 : I80F48.zero.raw = 0 := rfl
    have hneg : (I80F48.neg lsd).raw = -lsd.raw := rfl
    refine ⟨?_, by omega, by omega, by omega, by omega⟩
    unfold account_deposit
    simp only [hlv, hsub, hmax, hmin, h4, h5, h6, h7, h8, h9]

set_option maxRecDepth 8000 in
/-- C7 witness: depositing 1 with no outstanding liability adds exactly
one unit of deposit shares (exchange rate 1) to the balance and the bank
and leaves the liability shares untouched. -/
theorem account_deposit_split_witness :
    account_deposit ⟨0, I80F48.zero, I80F48.zero⟩ exampleBank
      (I80F48.ofInt 1) =
      (.ok (), ⟨0, I80F48.ofInt 1, I80F48.zero⟩,
        { exampleBank with total_deposit_shares := I80F48.ofInt 1 }) :=
  (account_deposit_split.2.1 ⟨0, I80F48.zero, I80F48.zero⟩ exampleBank
    (I80F48.ofInt 1) (I80F48.ofInt 1) ⟨0, I80F48.ofInt 1, I80F48.zero⟩
    { exampleBank with total_deposit_shares := I80F48.ofInt 1 }
    ⟨0, I80F48.ofInt 1, I80F48.zero⟩
    { exampleBank with total_deposit_shares := I80F48.ofInt 1 }
    (by decide) (by decide) (by decide) (by decide) (by decide) (by decide)
    (by decide) (by decide) (by decide)).1

/-- C8: when the checked aggregation of the per-balance weighted values
succeeds with totals `(ta, tl)`, the health check fails with the
bad-health (UnhealthyAccount) error iff `tl ≥ ta` — an exactly balanced
account is unhealthy — and succeeds iff `ta > tl`, for either regime (the
regime selects the weight pair inside the aggregation); the check is a
pure computation over the loaded views and touches no account or bank
state. -/
theorem check_account_health_iff (accounts : List BankAccountWithPriceFeed)
    (rt : RiskRequirementType) (ta tl : I80F48)
    (h : total_weighted_values accounts rt (I80F48.zero, I80F48.zero) =
      .ok (ta, tl)) :
    (check_account_health accounts rt = .err .badAccountHealth ↔
      ta.raw ≤ tl.raw) ∧
    (check_account_health accounts rt = .ok () ↔ tl.raw < ta.raw) := by
  unfold check_account_health
  rw [h]
  simp only [MResult.ok_bind]
  dsimp only
  constructor
  · by_cases hc : tl.raw < ta.raw
    · rw [if_pos hc]
      simp
      omega
    · rw [if_neg hc]
      simp
      omega
  · by_cases hc : tl.raw < ta.raw
    · rw [if_pos hc]
      simp
      omega
    · rw [if_neg hc]
      simp
      omega

set_option maxRecDepth 8000 in
/-- C8 witness: one balance of one deposit share at price 1 (exponent 6)
aggregates to strictly positive weighted assets against zero weighted
liabilities, and the health check passes. -/
theorem check_account_health_iff_witness :
    check_account_health [exampleHealthyAccount] .initial = .ok () :=
  (check_account_health_iff [exampleHealthyAccount] .initial
    ⟨281474976⟩ ⟨0⟩ (by decide)).2.mpr (by decide)

/-- Successful unweighted valuation decomposes into its checked multiply
and checked divide. -/
theorem calc_asset_value_none_ok {q v pr : I80F48} {p : Price}
    (hpr : pyth_price_to_i80f48 p = .ok pr) (hexpo : p.expo.natAbs ≤ 14)
    (h : calc_asset_value q p none = .ok v) :
    ∃ m, q.checked_mul pr = some m ∧
      m.checked_div (I80F48.ofInt (10 ^ p.expo.natAbs)) = some v := by
  have hs := exp10_get _ hexpo
  unfold calc_asset_value at h
  rw [hpr, hs] at h
  simp only [liftPanic_some, MResult.ok_bind, MResult.pure_eq] at h
  cases hm : q.checked_mul pr with
  | none => rw [hm] at h; simp at h
  | some m =>
    rw [hm] at h
    simp only [liftMath_some, MResult.ok_bind] at h
    cases hd : m.checked_div (I80F48.ofInt (10 ^ p.expo.natAbs)) with
    | none => rw [hd] at h; simp at h
    | some v2 =>
      rw [hd] at h
      simp only [liftMath_some, MResult.ok.injEq] at h
      exact ⟨m, rfl, by rw [hd, h]⟩

/-- Successful inverse valuation decomposes into its checked multiply and
checked divide. -/
theorem calc_asset_quantity_ok {v res pr : I80F48} {p : Price}
    (hpr : pyth_price_to_i80f48 p = .ok pr) (hexpo : p.expo.natAbs ≤ 14)
    (h : calc_asset_quantity v p = .ok res) :
    ∃ m, v.checked_mul (I80F48.ofInt (10 ^ p.expo.natAbs)) = some m ∧
      m.checked_div pr = some res := by
  have hs := exp10_get _ hexpo
  unfold calc_asset_quantity at h
  rw [hpr, hs] at h
  simp only [liftPanic_some, MResult.ok_bind] at h
  cases hm : v.checked_mul (I80F48.ofInt (10 ^ p.expo.natAbs)) with
  | none => rw [hm] at h; simp at h
  | some m =>
    rw [hm] at h
    simp only [liftMath_some, MResult.ok_bind] at h
    cases hd : m.checked_div pr with
    | none => rw [hd] at h; simp at h
    | some r2 =>
      rw [hd] at h
      simp only [liftMath_some, MResult.ok.injEq] at h
      exact ⟨m, rfl, by rw [hd, h]⟩

/-- C9: for a positive normalized price within the table range, the
inverse valuation applied to a successful valuation recovers the original
quantity within fixed-point precision: the result never exceeds the
original, and the loss is below `(2^49 + scale + price) / price` in raw
units — one rounding step per truncating operation. -/
theorem value_quantity_roundtrip (q v res pr : I80F48) (p : Price)
    (hpr : pyth_price_to_i80f48 p = .ok pr)
    (hexpo : p.expo.natAbs ≤ 14)
    (hpos : 0 < pr.raw)
    (hv : calc_asset_value q p none = .ok v)
    (hres : calc_asset_quantity v p = .ok res) :
    res.raw ≤ q.raw ∧
    (q.raw - res.raw) * pr.raw <
      2 ^ 49 + (I80F48.ofInt (10 ^ p.expo.natAbs)).raw + pr.raw := by
  obtain ⟨m1, hm1, hd1⟩ := calc_asset_value_none_ok hpr hexpo hv
  obtain ⟨m2, hm2, hd2⟩ := calc_asset_quantity_ok hpr hexpo hres
  have hf : (0 : ℤ) < I80F48.frac := by norm_num [I80F48.frac]
  have hsraw : (I80F48.ofInt (10 ^ p.expo.natAbs)).raw =
      10 ^ p.expo.natAbs * I80F48.frac := rfl
  have hspos : (0 : ℤ) < (I80F48.ofInt (10 ^ p.expo.natAbs)).raw := by
    rw [hsraw]
    positivity
  have e1 : m1.raw = (q.raw * pr.raw) / I80F48.frac := by
    rw [I80F48.checked_mul_some hm1, Int.fdiv_eq_ediv _ hf.le]
  have e2 : v.raw = (m1.raw * I80F48.frac) / (I80F48.ofInt (10 ^ p.expo.natAbs)).raw := by
    rw [(I80F48.checked_div_some hd1).2, Int.fdiv_eq_ediv _ hspos.le]
  have e3 : m2.raw = (v.raw * (I80F48.ofInt (10 ^ p.expo.natAbs)).raw) / I80F48.frac := by
    rw [I80F48.checked_mul_some hm2, Int.fdiv_eq_ediv _ hf.le]
  have e4 : res.raw = (m2.raw * I80F48.frac) / pr.raw := by
    rw [(I80F48.checked_div_some hd2).2, Int.fdiv_eq_ediv _ hpos.le]
  have h1 : I80F48.frac * m1.raw + q.raw * pr.raw % I80F48.frac =
      q.raw * pr.raw := by
    rw [e1]
    exact Int.ediv_add_emod _ _
  have h2 : (I80F48.ofInt (10 ^ p.expo.natAbs)).raw * v.raw +
      m1.raw * I80F48.frac % (I80F48.ofInt (10 ^ p.expo.natAbs)).raw =
      m1.raw * I80F48.frac := by
    rw [e2]
    exact Int.ediv_add_emod _ _
  have h3 : I80F48.frac * m2.raw +
      v.raw * (I80F48.ofInt (10 ^ p.expo.natAbs)).raw % I80F48.frac =
      v.raw * (I80F48.ofInt (10 ^ p.expo.natAbs)).raw := by
    rw [e3]
    exact Int.ediv_add_emod _ _
  have h4 : pr.raw * res.raw + m2.raw * I80F48.frac % pr.raw =
      m2.raw * I80F48.frac := by
    rw [e4]
    exact Int.ediv_add_emod _ _
  have n1 : 0 ≤ q.raw * pr.raw % I80F48.frac := Int.emod_nonneg _ hf.ne.symm
  have n2 : 0 ≤ m1.raw * I80F48.frac % (I80F48.ofInt (10 ^ p.expo.natAbs)).raw :=
    Int.emod_nonneg _ hspos.ne.symm
  have n3 : 0 ≤ v.raw * (I80F48.ofInt (10 ^ p.expo.natAbs)).raw % I80F48.frac :=
    Int.emod_nonneg _ hf.ne.symm
  have n4 : 0 ≤ m2.raw * I80F48.frac % pr.raw := Int.emod_nonneg _ hpos.ne.symm
  have b1 : q.raw * pr.raw % I80F48.frac < I80F48.frac :=
    Int.emod_lt_of_pos _ hf
  have b2 : m1.raw * I80F48.frac % (I80F48.ofInt (10 ^ p.expo.natAbs)).raw <
      (I80F48.ofInt (10 ^ p.expo.natAbs)).raw := Int.emod_lt_of_pos _ hspos
  have b3 : v.raw * (I80F48.ofInt (10 ^ p.expo.natAbs)).raw % I80F48.frac <
      I80F48.frac := Int.emod_lt_of_pos _ hf
  have b4 : m2.raw * I80F48.frac % pr.raw < pr.raw := Int.emod_lt_of_pos _ hpos
  have hid : (q.raw - res.raw) * pr.raw =
      q.raw * pr.raw % I80F48.frac +
      m1.raw * I80F48.frac % (I80F48.ofInt (10 ^ p.expo.natAbs)).raw +
      v.raw * (I80F48.ofInt (10 ^ p.expo.natAbs)).raw % I80F48.frac +
      m2.raw * I80F48.frac % pr.raw := by
    linear_combination - h1 - h2 - h3 - h4
  have htwo : (2 : ℤ) ^ 49 = 2 * I80F48.frac := by norm_num [I80F48.frac]
  constructor
  · by_contra hqr
    push_neg at hqr
    have hneg : (q.raw - res.raw) * pr.raw < 0 :=
      mul_neg_of_neg_of_pos (by omega) hpos
    linarith
  · rw [hid, htwo]
    linarith

set_option maxRecDepth 8000 in
/-- C9 witness: quantity 1 at price mantissa 2 (exponent 6): the valuation
gives raw 562949953, the inverse gives raw 281474976500000 against the
original raw `2^48 = 281474976710656`, within the stated bound. -/
theorem value_quantity_roundtrip_witness :
    (281474976500000 : ℤ) ≤ (2 : ℤ) ^ 48 ∧
    ((2 : ℤ) ^ 48 - 281474976500000) * (I80F48.ofInt 2).raw <
      2 ^ 49 + (I80F48.ofInt (10 ^ (6 : ℤ).natAbs)).raw + (I80F48.ofInt 2).raw :=
  value_quantity_roundtrip ⟨2 ^ 48⟩ ⟨562949953⟩ ⟨281474976500000⟩
    (I80F48.ofInt 2) ⟨2, 6⟩ (by decide) (by decide) (by decide) (by decide)
    (by decide)

end Marginfi
